import Mathlib

/-
Verification of the movie-recommendation training code
(`model.py`, `train.py`, `utils.py`) in a shallow Lean embedding.

Tensors are modelled as lists or as functions from node indices; real-valued
tensor arithmetic is modelled over `ℝ` (the IEEE float `inf` produced by
`0.0 ** -0.5` and immediately replaced by `0` in `model.py` is modelled by
the explicit `if d = 0` branch of `invSqrtDeg`), loss scalars over `ℚ`.
The Python `None` value and dynamic tuple unpacking are modelled by the
small `PyObj` universe.
-/

namespace MovieRec

section Bipartite

variable {V : Type*} [AddCommMonoid V] [Module ℝ V]

/-- Degree of node `v` on the source side of the bipartite edge list:
`degree(from_, x.size(0))` in `model.py` line 16, i.e. the number of edges
whose first endpoint is `v`. -/
def degFrom (E : List (ℕ × ℕ)) (v : ℕ) : ℕ :=
  (E.map Prod.fst).count v

/-- Degree of node `v` on the target side of the bipartite edge list:
`degree(to_, y.size(0))` in `model.py` line 17. -/
def degTo (E : List (ℕ × ℕ)) (v : ℕ) : ℕ :=
  (E.map Prod.snd).count v

/-- The per-node factor `deg.pow(-0.5)` with the subsequent replacement of
`inf` by `0` (`model.py` lines 20-25): for degree `0` the float power yields
`inf`, which the code overwrites with `0`; for positive degree it is the
real inverse square root. -/
noncomputable def invSqrtDeg (d : ℕ) : ℝ :=
  if d = 0 then 0 else (Real.sqrt d)⁻¹

/-- The per-edge normalization tensor `norm = norm_x * norm_y`
(`model.py` lines 28-32): entry `k` is
`deg_x_inv_sqrt[from_[k]] * deg_y_inv_sqrt[to_[k]]`. -/
noncomputable def edgeNorms (E : List (ℕ × ℕ)) : List ℝ :=
  E.map (fun e => invSqrtDeg (degFrom E e.1) * invSqrtDeg (degTo E e.2))

/-- Model of `edge_index.flip(0)` (`model.py` line 34): swap source and target rows. -/
def flipE (E : List (ℕ × ℕ)) : List (ℕ × ℕ) :=
  E.map (fun e => (e.2, e.1))

namespace BipartiteLightGCN

/-- Source `BipartiteLightGCN.message` (`model.py` lines 37-38): the message for one
edge is the normalization scalar times the source-node feature vector. -/
noncomputable def message (norm : ℝ) (x_j : V) : V :=
  norm • x_j

/-- Source `BipartiteLightGCN.update` (`model.py` lines 40-43): identity on the
aggregated output. -/
def update (aggr_out : V) : V :=
  aggr_out

/-- Model of `self.propagate(edge_index, size, x=(xsrc, xdst), norm)` with `aggr='add'`
and flow source-to-target: the output row `j` is the sum of
`update (message (norm k) (xsrc (src k)))` over the edges `k` whose target is
`j`.  The `size` argument only fixes tensor allocation in the library and is
implicit here (outputs are total functions of the node index). -/
noncomputable def propagate (E : List (ℕ × ℕ)) (norm : List ℝ)
    (xsrc : ℕ → V) (j : ℕ) : V :=
  (((E.zip norm).filter (fun p => decide (p.1.2 = j))).map
    (fun p => update (message p.2 (xsrc p.1.1)))).sum

/-- Source `BipartiteLightGCN.forward` (`model.py` lines 13-35): compute the
per-edge norms once, propagate `x` along the edges for `x2y`, propagate `y`
along the flipped edges (with the same norm tensor) for `y2x`, and return
`(y2x, x2y)`. -/
noncomputable def forward (x y : ℕ → V) (edge_index : List (ℕ × ℕ)) :
    (ℕ → V) × (ℕ → V) :=
  let norm := edgeNorms edge_index
  let x2y := propagate edge_index norm x
  let y2x := propagate (flipE edge_index) norm y
  (y2x, x2y)

end BipartiteLightGCN

lemma invSqrtDeg_nonneg (d : ℕ) : 0 ≤ invSqrtDeg d := by
  unfold invSqrtDeg
  split
  · exact le_refl 0
  · exact inv_nonneg.mpr (Real.sqrt_nonneg _)

lemma invSqrtDeg_of_ne_zero {d : ℕ} (h : d ≠ 0) :
    invSqrtDeg d = (Real.sqrt d)⁻¹ := by
  unfold invSqrtDeg
  simp [h]

lemma edgeNorms_getD {E : List (ℕ × ℕ)} {k : ℕ} (h : k < E.length) :
    (edgeNorms E).getD k 0 =
      invSqrtDeg (degFrom E (E.getD k (0, 0)).1) *
        invSqrtDeg (degTo E (E.getD k (0, 0)).2) := by
  have hk : k < (edgeNorms E).length := by
    simpa [edgeNorms] using h
  rw [List.getD_eq_getElem _ _ hk, List.getD_eq_getElem _ _ h]
  simp [edgeNorms]

lemma flipE_getD (E : List (ℕ × ℕ)) (k : ℕ) :
    (flipE E).getD k (0, 0) = ((E.getD k (0, 0)).2, (E.getD k (0, 0)).1) := by
  induction E generalizing k with
  | nil => simp [flipE]
  | cons e E ih =>
    cases k with
    | zero => simp [flipE]
    | succ k => simpa [flipE] using ih k

lemma length_flipE (E : List (ℕ × ℕ)) : (flipE E).length = E.length := by
  simp [flipE]

lemma degFrom_flipE (E : List (ℕ × ℕ)) (v : ℕ) :
    degFrom (flipE E) v = degTo E v := by
  unfold degFrom degTo flipE
  rw [List.map_map]
  rfl

lemma degTo_flipE (E : List (ℕ × ℕ)) (v : ℕ) :
    degTo (flipE E) v = degFrom E v := by
  unfold degFrom degTo flipE
  rw [List.map_map]
  rfl

lemma edgeNorms_flipE (E : List (ℕ × ℕ)) : edgeNorms (flipE E) = edgeNorms E := by
  unfold edgeNorms
  simp only [degFrom_flipE, degTo_flipE]
  simp only [flipE, List.map_map]
  congr 1
  funext e
  exact mul_comm _ _

lemma length_edgeNorms (E : List (ℕ × ℕ)) : (edgeNorms E).length = E.length := by
  simp [edgeNorms]

lemma propagate_eq_sum (E : List (ℕ × ℕ)) :
    ∀ N : List ℝ, N.length = E.length → ∀ (x : ℕ → V) (j : ℕ),
      BipartiteLightGCN.propagate E N x j =
        ∑ k in Finset.range E.length,
          (if (E.getD k (0, 0)).2 = j then N.getD k 0 • x (E.getD k (0, 0)).1
           else 0) := by
  induction E with
  | nil =>
    intro N h x j
    simp [BipartiteLightGCN.propagate]
  | cons e E ih =>
    intro N h x j
    cases N with
    | nil => simp at h
    | cons n N =>
      have hlen : N.length = E.length := by simpa using h
      rw [List.length_cons, Finset.sum_range_succ']
      simp only [List.getD_cons_succ, List.getD_cons_zero]
      rw [← ih N hlen x j]
      by_cases hj : e.2 = j
      · simp [BipartiteLightGCN.propagate, BipartiteLightGCN.message,
          BipartiteLightGCN.update, hj, add_comm]
      · simp [BipartiteLightGCN.propagate, BipartiteLightGCN.message,
          BipartiteLightGCN.update, hj]

lemma degFrom_pos {E : List (ℕ × ℕ)} {e : ℕ × ℕ} (he : e ∈ E) :
    0 < degFrom E e.1 := by
  unfold degFrom
  exact List.count_pos_iff.mpr (List.mem_map_of_mem Prod.fst he)

lemma degTo_pos {E : List (ℕ × ℕ)} {e : ℕ × ℕ} (he : e ∈ E) :
    0 < degTo E e.2 := by
  unfold degTo
  exact List.count_pos_iff.mpr (List.mem_map_of_mem Prod.snd he)

end Bipartite

/-- Python runtime values, as far as the claims need them: `None`, 2-tuples,
tensors of scalars, and string-keyed dictionaries. -/
inductive PyObj : Type where
  | none : PyObj
  | pair : PyObj → PyObj → PyObj
  | tens : List ℚ → PyObj
  | dict : List (String × PyObj) → PyObj

/-- The state built by `HeteroLightGCN.__init__` (`model.py` lines 58-72):
node/edge type metadata and one embedding table per non-excluded node type,
recorded by its `(num_embeddings, num_dim)` shape; the per-edge-type
`BipartiteLightGCN` instances are parameterless, so only `edge_types`
records them. -/
structure HeteroLightGCN where
  node_types : List (String × ℕ)
  edge_types : List String
  embs : List (String × (ℕ × ℕ))

/-- Source `HeteroLightGCN.forward` (`model.py` lines 74-76): the body is a bare
`return`, i.e. the Python value `None`, for every input batch and every
model instance. -/
def HeteroLightGCN.forward (_self : HeteroLightGCN) (_data : PyObj) : PyObj :=
  PyObj.none

/-- Python tuple destructuring `a, b = v`: it succeeds only when `v` is a
pair; unpacking `None` raises a `TypeError`. -/
def unpack2 : PyObj → Except String (PyObj × PyObj)
  | PyObj.pair a b => Except.ok (a, b)
  | _ => Except.error "TypeError: cannot unpack non-iterable NoneType object"

/-- One iteration of the loop body of `train_step` (`train.py` lines 88-111)
up to its first point of failure: `res, res_dict = model(batch)` destructures
the model output; the rest of the iteration (loss, backward, optimizer step,
lines 95-111) is abstracted as the continuation `rest`, reached only when the
destructuring succeeds. -/
def train_step_batch (model : HeteroLightGCN) (batch : PyObj)
    (rest : PyObj × PyObj → ℚ) : Except String ℚ :=
  (unpack2 (model.forward batch)).map rest

/-- The checkpoint record assembled by `save_checkpoint`
(`utils.py` lines 129-144); the dictionary keys become fields.  The model,
optimizer, scheduler, scaler and config payloads are type parameters (the
code stores the live Python objects); loss scalars are rationals, the
`val_f1` per-class dictionary an association list, histories lists. -/
structure Checkpoint (M O S A C : Type) where
  model : M
  optimizer : O
  scheduler : S
  scaler : A
  epoch : ℕ
  end_epoch : ℕ
  train_loss : ℚ
  val_loss : ℚ
  val_acc : ℚ
  val_f1 : List (ℕ × ℚ)
  config : C
  log_dir : String
  train_losses : List ℚ
  val_losses : List ℚ

/-- Source `save_checkpoint` (`utils.py` lines 96-145): build the record from the
arguments (in the source's argument order) and `torch.save` it at
`model_path`.  `torch.save`/`torch.load` are modelled as writing to and
reading from a path-indexed store, i.e. serialization by the external
library is assumed faithful. -/
def save_checkpoint {M O S A C : Type} (model : M) (optimizer : O)
    (scheduler : S) (scaler : A) (epoch end_epoch : ℕ)
    (train_loss val_loss val_acc : ℚ) (val_f1 : List (ℕ × ℚ))
    (model_path : String) (config : C) (log_dir : String)
    (train_losses val_losses : List ℚ)
    (fs : String → Option (Checkpoint M O S A C)) :
    String → Option (Checkpoint M O S A C) :=
  fun p =>
    if p = model_path then
      some { model := model, optimizer := optimizer, scheduler := scheduler,
             scaler := scaler, epoch := epoch, end_epoch := end_epoch,
             train_loss := train_loss, val_loss := val_loss,
             val_acc := val_acc, val_f1 := val_f1, config := config,
             log_dir := log_dir, train_losses := train_losses,
             val_losses := val_losses }
    else fs p

/-- Source `load_checkpoint` (`utils.py` lines 206-217): `torch.load(save_path)`
from the same path-indexed store. -/
def load_checkpoint {M O S A C : Type}
    (fs : String → Option (Checkpoint M O S A C)) (save_path : String) :
    Option (Checkpoint M O S A C) :=
  fs save_path

/-- Source `utils.load_config` (`utils.py` lines 12-23): read and parse the YAML
file at `path`; filesystem plus parser are modelled as a map from paths to
parsed configs. -/
def load_config {C : Type} (fs : String → C) (path : String) : C :=
  fs path

/-- The config-loading prefix of `init` (`train.py` lines 30-34): the
`config_dir` argument is defaulted to "config.yaml" when `None`, but the
resulting value is then never used — line 34 calls `load_config` with the
string literal "config.yaml". -/
def init_config {C : Type} (fs : String → C) (config_dir : Option String) : C :=
  let _config_dir := config_dir.getD "config.yaml"
  load_config fs "config.yaml"

/-- The result tuple of `init` (`train.py` lines 30-48) as far as `train`
consumes it: config, model, optimizer/scheduler/scaler, the fresh writer's
log directory, and `end_epoch = config["train"]["epochs"]` (the dataset and
writer objects themselves are not modelled). -/
structure InitResult (M O S A C : Type) where
  config : C
  model : M
  optimizer : O
  scheduler : S
  scaler : A
  log_dir : String
  end_epoch : ℕ

/-- The mutable state assembled by `train` (`train.py` lines 116-161) before
the epoch loop starts. -/
structure TrainState (M O S A C : Type) where
  model : M
  optimizer : O
  scheduler : S
  scaler : A
  config : C
  log_dir : String
  start_epoch : ℕ
  epoch : ℕ
  end_epoch : ℕ
  train_losses : List ℚ
  val_losses : List ℚ

/-- The initialization phase of `train` (`train.py` lines 116-161).
`checkpoint` is `args.checkpoint` already resolved through
`load_checkpoint` (`none` when the flag is absent); `fresh` is what
`init(args.config)` would return; `oss` is
`utils.create_optimizer_scheduler_scaler`; `cfg_epochs` reads
`config["train"]["epochs"]`; `fresh_log_dir` is the new writer directory
created on the reinit path.  Mirrors the source's three conditionals:
load-everything-from-checkpoint, reinit-when-not-resuming (fresh
optimizer/scheduler/scaler/writer, epoch 0, empty histories), fresh `init`
when no checkpoint, and the resume branch that errors without a checkpoint
and otherwise bumps `start_epoch` to `epoch + 1`. -/
def trainSetup {M O S A C : Type} (resume : Bool)
    (checkpoint : Option (Checkpoint M O S A C))
    (fresh : InitResult M O S A C) (oss : C → M → O × S × A)
    (cfg_epochs : C → ℕ) (fresh_log_dir : String) :
    Except String (TrainState M O S A C) :=
  match checkpoint with
  | some ck =>
    let st0 : TrainState M O S A C :=
      { model := ck.model, optimizer := ck.optimizer,
        scheduler := ck.scheduler, scaler := ck.scaler, config := ck.config,
        log_dir := ck.log_dir, start_epoch := 0, epoch := ck.epoch,
        end_epoch := ck.end_epoch, train_losses := ck.train_losses,
        val_losses := ck.val_losses }
    let st1 : TrainState M O S A C :=
      if resume = false then
        let o := oss ck.config ck.model
        { st0 with
          optimizer := o.1, scheduler := o.2.1, scaler := o.2.2,
          log_dir := fresh_log_dir, epoch := 0,
          end_epoch := cfg_epochs ck.config,
          train_losses := [], val_losses := [] }
      else st0
    if resume then Except.ok { st1 with start_epoch := st1.epoch + 1 }
    else Except.ok st1
  | Option.none =>
    if resume then
      Except.error "Please provide a checkpoint file to resume training from."
    else
      Except.ok
        { model := fresh.model, optimizer := fresh.optimizer,
          scheduler := fresh.scheduler, scaler := fresh.scaler,
          config := fresh.config, log_dir := fresh.log_dir,
          start_epoch := 0, epoch := 0, end_epoch := fresh.end_epoch,
          train_losses := [], val_losses := [] }

/-- The comparison `val_loss < best_val_loss` of `train.py` line 197, where
`best_val_loss` starts as `float("inf")` (line 164): infinity is modelled by
`Option.none`. -/
def improves (v : ℚ) : Option ℚ → Bool
  | Option.none => true
  | some b => decide (v < b)

/-- The per-epoch checkpoint writes of the epoch loop
(`train.py` lines 170-230), driven by the sequence of per-epoch validation
losses: each epoch writes `<logdir>/last.pt` unconditionally (first
component) and `<logdir>/best.pt` exactly when the validation loss improves
on the running best (second component), in which case the running best is
updated. -/
def ckptLoop : List ℚ → Option ℚ → List (Bool × Bool)
  | [], _ => []
  | v :: rest, best =>
    (true, improves v best) ::
      ckptLoop rest (if improves v best then some v else best)

/-- The checkpoint writes of a full `train` run: `best_val_loss` enters the
loop as `float("inf")`. -/
def epochWrites (val_losses : List ℚ) : List (Bool × Bool) :=
  ckptLoop val_losses Option.none

/-- The running best after processing a list of validation losses. -/
def bestAfter : Option ℚ → List ℚ → Option ℚ
  | best, [] => best
  | best, v :: rest => bestAfter (if improves v best then some v else best) rest

/-- The `("movie", "ratedby", "user")` edge store of a batch, with the fields
`remove_label_edges` (`utils.py` lines 60-81) touches: `pos` and `weight`
may be absent (`getattr(..., None)`). -/
structure MovieUserEdges where
  edge_index : List (ℕ × ℕ)
  edge_label_index : List (ℕ × ℕ)
  rating : List ℚ
  e_id : List ℕ
  pos : Option (List ℕ)
  weight : Option (List ℚ)

/-- A heterogeneous minibatch: the movie-ratedby-user edge store plus all of
its other node/edge stores, collected in `rest`. -/
structure HeteroBatch (R : Type) where
  movie_ratedby_user : MovieUserEdges
  rest : R

/-- The boolean keep-mask of `remove_label_edges` (`utils.py` lines 66-73):
entry `k` is true when edge `k` of `edge_index` equals no edge of
`edge_label_index` (the broadcast `==`/`all(dim=2)`/`any(dim=0)`/`~`
chain). -/
def keepMask (edge_index edge_label_index : List (ℕ × ℕ)) : List Bool :=
  edge_index.map fun e => !(edge_label_index.any fun l => decide (l = e))

/-- Boolean-mask indexing `t[mask]` along the edge dimension. -/
def applyMask {α : Type} : List Bool → List α → List α
  | [], _ => []
  | _ :: _, [] => []
  | b :: bs, x :: xs => if b then x :: applyMask bs xs else applyMask bs xs

/-- Source `remove_label_edges` (`utils.py` lines 60-81): filter `edge_index` by
the keep-mask and apply the same mask to `pos` (when present), `rating`,
`weight` (when present) and `e_id`; everything else in the batch is left
untouched. -/
def remove_label_edges {R : Type} (batch : HeteroBatch R) : HeteroBatch R :=
  let s := batch.movie_ratedby_user
  let mask := keepMask s.edge_index s.edge_label_index
  { batch with
    movie_ratedby_user :=
      { s with
        edge_index := applyMask mask s.edge_index,
        pos := s.pos.map (applyMask mask),
        rating := applyMask mask s.rating,
        weight := s.weight.map (applyMask mask),
        e_id := applyMask mask s.e_id } }

/-- Concrete minibatch used to witness the `remove_label_edges` claim. -/
def sampleBatch : HeteroBatch ℕ :=
  { movie_ratedby_user :=
      { edge_index := [(0, 1), (2, 3)], edge_label_index := [(2, 3)],
        rating := [1, 2], e_id := [10, 11], pos := Option.none,
        weight := some [5, 6] },
    rest := 7 }

lemma improves_step (v x : ℚ) (best : Option ℚ) :
    improves v (if improves x best then some x else best) =
      (improves v best && decide (v < x)) := by
  cases best with
  | none => simp [improves]
  | some b =>
    by_cases hx : x < b
    · by_cases hv : v < x
      · simp [improves, hx, hv, lt_trans hv hx]
      · simp [improves, hx, hv]
    · by_cases hv : v < b
      · simp [improves, hx, hv, lt_of_lt_of_le hv (not_lt.mp hx)]
      · simp [improves, hx, hv]

lemma improves_bestAfter (v : ℚ) :
    ∀ (l : List ℚ) (best : Option ℚ),
      improves v (bestAfter best l) =
        (improves v best && l.all fun x => decide (v < x)) := by
  intro l
  induction l with
  | nil => intro best; simp [bestAfter]
  | cons x xs ih =>
    intro best
    rw [show bestAfter best (x :: xs) =
        bestAfter (if improves x best then some x else best) xs from rfl,
      ih, improves_step, List.all_cons, Bool.and_assoc]

lemma ckptLoop_length : ∀ (L : List ℚ) (best : Option ℚ),
    (ckptLoop L best).length = L.length := by
  intro L
  induction L with
  | nil => intro best; rfl
  | cons v rest ih => intro best; simp [ckptLoop, ih]

lemma ckptLoop_getD :
    ∀ (L : List ℚ) (best : Option ℚ) (i : ℕ), i < L.length →
      (ckptLoop L best).getD i (false, false) =
        (true, improves (L.getD i 0) (bestAfter best (L.take i))) := by
  intro L
  induction L with
  | nil =>
    intro best i h
    simp at h
  | cons v rest ih =>
    intro best i h
    cases i with
    | zero => simp [ckptLoop, bestAfter]
    | succ i =>
      have h' : i < rest.length := by simpa using h
      simp only [ckptLoop, List.getD_cons_succ, List.take_succ_cons]
      rw [ih _ i h']
      rfl

lemma any_eq_mem (L : List (ℕ × ℕ)) (e : ℕ × ℕ) :
    (L.any fun l => decide (l = e)) = decide (e ∈ L) := by
  induction L with
  | nil => rfl
  | cons a L ih =>
    by_cases h : a = e
    · simp [h]
    · have h' : ¬e = a := fun he => h he.symm
      simp [List.any_cons, ih, h, h']

lemma applyMask_keepMask_self (L : List (ℕ × ℕ)) :
    ∀ E : List (ℕ × ℕ),
      applyMask (keepMask E L) E = E.filter fun e => decide (e ∉ L) := by
  intro E
  induction E with
  | nil => rfl
  | cons e E ih =>
    by_cases he : e ∈ L
    · simp [keepMask, applyMask, any_eq_mem, he, List.filter_cons] at ih ⊢
      exact ih
    · simp [keepMask, applyMask, any_eq_mem, he, List.filter_cons] at ih ⊢
      exact ih

lemma applyMask_keepMask_zip {α : Type} (L : List (ℕ × ℕ)) :
    ∀ (E : List (ℕ × ℕ)) (xs : List α), xs.length = E.length →
      applyMask (keepMask E L) xs =
        ((E.zip xs).filter fun p => decide (p.1 ∉ L)).map Prod.snd := by
  intro E
  induction E with
  | nil =>
    intro xs h
    rw [List.length_nil, List.length_eq_zero] at h
    subst h
    rfl
  | cons e E ih =>
    intro xs h
    cases xs with
    | nil => simp at h
    | cons x xs =>
      have h' : xs.length = E.length := by simpa using h
      have ih' := ih xs h'
      by_cases he : e ∈ L
      · simp [keepMask, applyMask, any_eq_mem, he, List.filter_cons] at ih' ⊢
        exact ih'
      · simp [keepMask, applyMask, any_eq_mem, he, List.filter_cons] at ih' ⊢
        exact ih'

end MovieRec

namespace MovieRec

/-- C1: for every edge list and every in-range edge position `k`, the
normalization factor computed in `BipartiteLightGCN.forward` equals the
inverse square root of the product of the two endpoint degrees, it is
non-negative (being a real number it is in particular neither infinite nor
NaN), and the per-node factor assigned to a degree-zero endpoint is `0`. -/
theorem c1_edge_norm_inv_sqrt (E : List (ℕ × ℕ)) (k : ℕ) (h : k < E.length) :
    (edgeNorms E).getD k 0 =
      (Real.sqrt ((degFrom E (E.getD k (0, 0)).1 : ℝ) *
        (degTo E (E.getD k (0, 0)).2 : ℝ)))⁻¹ ∧
    0 ≤ (edgeNorms E).getD k 0 ∧
    invSqrtDeg 0 = 0 := by
  have hmem : E.getD k (0, 0) ∈ E := by
    rw [List.getD_eq_getElem _ _ h]
    exact List.getElem_mem h
  have hdf : degFrom E (E.getD k (0, 0)).1 ≠ 0 :=
    Nat.pos_iff_ne_zero.mp (degFrom_pos hmem)
  have hdt : degTo E (E.getD k (0, 0)).2 ≠ 0 :=
    Nat.pos_iff_ne_zero.mp (degTo_pos hmem)
  have hcast : (0 : ℝ) ≤ (degFrom E (E.getD k (0, 0)).1 : ℝ) :=
    Nat.cast_nonneg _
  refine ⟨?_, ?_, ?_⟩
  · rw [edgeNorms_getD h, invSqrtDeg_of_ne_zero hdf, invSqrtDeg_of_ne_zero hdt,
      Real.sqrt_mul hcast, mul_inv]
  · rw [edgeNorms_getD h]
    exact mul_nonneg (invSqrtDeg_nonneg _) (invSqrtDeg_nonneg _)
  · simp [invSqrtDeg]

/-- Witness for C1 on the concrete edge list `[(0,1),(0,2),(1,1)]` at edge
position `0`. -/
theorem c1_edge_norm_inv_sqrt_witness :
    (edgeNorms [(0, 1), (0, 2), (1, 1)]).getD 0 0 =
      (Real.sqrt ((degFrom [(0, 1), (0, 2), (1, 1)]
          (([(0, 1), (0, 2), (1, 1)] : List (ℕ × ℕ)).getD 0 (0, 0)).1 : ℝ) *
        (degTo [(0, 1), (0, 2), (1, 1)]
          (([(0, 1), (0, 2), (1, 1)] : List (ℕ × ℕ)).getD 0 (0, 0)).2 : ℝ)))⁻¹ ∧
    0 ≤ (edgeNorms [(0, 1), (0, 2), (1, 1)]).getD 0 0 ∧
    invSqrtDeg 0 = 0 :=
  c1_edge_norm_inv_sqrt [(0, 1), (0, 2), (1, 1)] 0 (by decide)

/-- C2: `BipartiteLightGCN.forward` returns `(y2x, x2y)` where the
representation of each destination node is the sum, over its incident edges,
of the edge's normalization weight times the source node's feature vector
(`x2y` aggregates `x` at the edges' targets; `y2x` aggregates `y` at the
edges' sources, via the flipped edge index); the layer introduces no learned
parameters. -/
theorem c2_forward_sum_of_messages {V : Type*} [AddCommMonoid V] [Module ℝ V]
    (x y : ℕ → V) (E : List (ℕ × ℕ)) (j i : ℕ) :
    (BipartiteLightGCN.forward x y E).2 j =
      ∑ k in Finset.range E.length,
        (if (E.getD k (0, 0)).2 = j then
          (edgeNorms E).getD k 0 • x (E.getD k (0, 0)).1
         else 0) ∧
    (BipartiteLightGCN.forward x y E).1 i =
      ∑ k in Finset.range E.length,
        (if (E.getD k (0, 0)).1 = i then
          (edgeNorms E).getD k 0 • y (E.getD k (0, 0)).2
         else 0) := by
  constructor
  · exact propagate_eq_sum E (edgeNorms E) (length_edgeNorms E) x j
  · have h2 : (edgeNorms E).length = (flipE E).length := by
      rw [length_edgeNorms, length_flipE]
    have hprop := propagate_eq_sum (flipE E) (edgeNorms E) h2 y i
    rw [show (BipartiteLightGCN.forward x y E).1 i =
        BipartiteLightGCN.propagate (flipE E) (edgeNorms E) y i from rfl,
      hprop, length_flipE]
    exact Finset.sum_congr rfl fun k _ => by rw [flipE_getD]

/-- C3: the `y2x` output of `forward x y E` equals the `x2y` output of
`forward y x (flipE E)` (treating `y` as the source side over the flipped
edge index), and the per-edge normalization values of the flipped edge index
are literally the same as those of `E`. -/
theorem c3_forward_flip_symmetry {V : Type*} [AddCommMonoid V] [Module ℝ V]
    (x y : ℕ → V) (E : List (ℕ × ℕ)) :
    (BipartiteLightGCN.forward x y E).1 =
      (BipartiteLightGCN.forward y x (flipE E)).2 ∧
    edgeNorms (flipE E) = edgeNorms E := by
  constructor
  · show BipartiteLightGCN.propagate (flipE E) (edgeNorms E) y =
      BipartiteLightGCN.propagate (flipE E) (edgeNorms (flipE E)) y
    rw [edgeNorms_flipE]
  · exact edgeNorms_flipE E

/-- C4: `HeteroLightGCN.forward` returns `None` for every model instance and
every input batch: the forward pass is a stub producing no node-type-to-
representation mapping and no edge predictions. -/
theorem c4_hetero_forward_returns_none (m : HeteroLightGCN) (data : PyObj) :
    m.forward data = PyObj.none :=
  rfl

/-- C5 (code bug): `init` ignores its `config_dir` argument.  For every
filesystem and every value of `--config`, the loaded config is the one at
the literal path "config.yaml"; in particular the identity filesystem shows
that the path "my_config.yaml" supplied via `--config` is not the one
read. -/
theorem c5_config_path_ignored :
    (∀ (fs : String → String) (p : Option String),
      init_config fs p = fs "config.yaml") ∧
    init_config (fun s => s) (some "my_config.yaml") = "config.yaml" ∧
    init_config (fun s => s) (some "my_config.yaml") ≠ "my_config.yaml" := by
  refine ⟨fun fs p => rfl, rfl, ?_⟩
  decide

/-- C6: saving a checkpoint and immediately reloading it from the same path
reproduces the record exactly, and the record contains the model, optimizer,
scheduler, scaler, current epoch, end epoch, latest losses/metrics, config,
log directory, and both loss histories, each equal to what was saved. -/
theorem c6_checkpoint_roundtrip {M O S A C : Type} (model : M) (optimizer : O)
    (scheduler : S) (scaler : A) (epoch end_epoch : ℕ)
    (train_loss val_loss val_acc : ℚ) (val_f1 : List (ℕ × ℚ))
    (model_path : String) (config : C) (log_dir : String)
    (train_losses val_losses : List ℚ)
    (fs : String → Option (Checkpoint M O S A C)) :
    load_checkpoint
        (save_checkpoint model optimizer scheduler scaler epoch end_epoch
          train_loss val_loss val_acc val_f1 model_path config log_dir
          train_losses val_losses fs) model_path =
      some { model := model, optimizer := optimizer, scheduler := scheduler,
             scaler := scaler, epoch := epoch, end_epoch := end_epoch,
             train_loss := train_loss, val_loss := val_loss,
             val_acc := val_acc, val_f1 := val_f1, config := config,
             log_dir := log_dir, train_losses := train_losses,
             val_losses := val_losses } := by
  simp [load_checkpoint, save_checkpoint]

/-- C7: starting `train` with `--resume true` and a checkpoint produces a
state whose optimizer, scheduler (and scaler, model, config, histories) are
exactly the ones loaded from the checkpoint, and whose epoch loop starts at
the checkpoint's epoch plus one. -/
theorem c7_resume_uses_checkpoint_state {M O S A C : Type}
    (ck : Checkpoint M O S A C) (fresh : InitResult M O S A C)
    (oss : C → M → O × S × A) (cfg_epochs : C → ℕ) (fresh_log_dir : String) :
    trainSetup true (some ck) fresh oss cfg_epochs fresh_log_dir =
      Except.ok
        { model := ck.model, optimizer := ck.optimizer,
          scheduler := ck.scheduler, scaler := ck.scaler,
          config := ck.config, log_dir := ck.log_dir,
          start_epoch := ck.epoch + 1, epoch := ck.epoch,
          end_epoch := ck.end_epoch, train_losses := ck.train_losses,
          val_losses := ck.val_losses } := by
  simp [trainSetup]

/-- C8: in every epoch of the training loop a checkpoint is written to
`last.pt` (first flag), and one is written to `best.pt` (second flag) if and
only if that epoch's validation loss is strictly lower than every earlier
validation loss of the run, i.e. than the running best, which starts at
infinity. -/
theorem c8_last_always_best_on_improvement (L : List ℚ) (i : ℕ)
    (h : i < L.length) :
    ((epochWrites L).getD i (false, false)).1 = true ∧
    (((epochWrites L).getD i (false, false)).2 = true ↔
      ∀ x ∈ L.take i, L.getD i 0 < x) := by
  rw [show epochWrites L = ckptLoop L Option.none from rfl,
    ckptLoop_getD L Option.none i h]
  refine ⟨rfl, ?_⟩
  show improves (L.getD i 0) (bestAfter Option.none (L.take i)) = true ↔ _
  rw [improves_bestAfter]
  simp [improves, List.all_eq_true]

/-- Witness for C8 on the loss sequence `[2, 1, 3]` at epoch `1` (whose loss
`1` improves on the earlier loss `2`). -/
theorem c8_last_always_best_witness :
    ((epochWrites [2, 1, 3]).getD 1 (false, false)).1 = true ∧
    (((epochWrites [2, 1, 3]).getD 1 (false, false)).2 = true ↔
      ∀ x ∈ ([2, 1, 3] : List ℚ).take 1, ([2, 1, 3] : List ℚ).getD 1 0 < x) :=
  c8_last_always_best_on_improvement [2, 1, 3] 1 (by decide)

/-- C9: for every model instance, every minibatch and every continuation for
the rest of the loop body, the `res, res_dict = model(batch)` destructuring
in `train_step` raises a `TypeError` because `HeteroLightGCN.forward`
returns `None`, so no training step ever completes a forward/loss/backward
iteration. -/
theorem c9_train_step_type_error (model : HeteroLightGCN) (batch : PyObj)
    (rest : PyObj × PyObj → ℚ) :
    train_step_batch model batch rest =
      Except.error "TypeError: cannot unpack non-iterable NoneType object" ∧
    ∀ q : ℚ, train_step_batch model batch rest ≠ Except.ok q := by
  refine ⟨rfl, ?_⟩
  intro q hq
  exact Except.noConfusion hq

/-- C10: `remove_label_edges` keeps exactly the edges of the
movie-ratedby-user `edge_index` that match no edge of `edge_label_index`,
filters the aligned per-edge attributes `rating` and `e_id` (and `pos` and
`weight` when present) at the same positions, and leaves the
`edge_label_index` field and every other field of the batch unchanged. -/
theorem c10_remove_label_edges_filters {R : Type} (batch : HeteroBatch R)
    (hr : batch.movie_ratedby_user.rating.length =
      batch.movie_ratedby_user.edge_index.length)
    (he : batch.movie_ratedby_user.e_id.length =
      batch.movie_ratedby_user.edge_index.length) :
    (remove_label_edges batch).movie_ratedby_user.edge_index =
      batch.movie_ratedby_user.edge_index.filter
        (fun e => decide (e ∉ batch.movie_ratedby_user.edge_label_index)) ∧
    (remove_label_edges batch).movie_ratedby_user.rating =
      ((batch.movie_ratedby_user.edge_index.zip
          batch.movie_ratedby_user.rating).filter
        (fun p =>
          decide (p.1 ∉ batch.movie_ratedby_user.edge_label_index))).map
        Prod.snd ∧
    (remove_label_edges batch).movie_ratedby_user.e_id =
      ((batch.movie_ratedby_user.edge_index.zip
          batch.movie_ratedby_user.e_id).filter
        (fun p =>
          decide (p.1 ∉ batch.movie_ratedby_user.edge_label_index))).map
        Prod.snd ∧
    (∀ p, batch.movie_ratedby_user.pos = some p →
      p.length = batch.movie_ratedby_user.edge_index.length →
      (remove_label_edges batch).movie_ratedby_user.pos =
        some (((batch.movie_ratedby_user.edge_index.zip p).filter
          (fun q =>
            decide (q.1 ∉ batch.movie_ratedby_user.edge_label_index))).map
          Prod.snd)) ∧
    (∀ w, batch.movie_ratedby_user.weight = some w →
      w.length = batch.movie_ratedby_user.edge_index.length →
      (remove_label_edges batch).movie_ratedby_user.weight =
        some (((batch.movie_ratedby_user.edge_index.zip w).filter
          (fun q =>
            decide (q.1 ∉ batch.movie_ratedby_user.edge_label_index))).map
          Prod.snd)) ∧
    (remove_label_edges batch).movie_ratedby_user.edge_label_index =
      batch.movie_ratedby_user.edge_label_index ∧
    (remove_label_edges batch).rest = batch.rest := by
  refine ⟨?_, ?_, ?_, ?_, ?_, rfl, rfl⟩
  · exact applyMask_keepMask_self _ _
  · exact applyMask_keepMask_zip _ _ _ hr
  · exact applyMask_keepMask_zip _ _ _ he
  · intro p hp hlen
    show (batch.movie_ratedby_user.pos.map _) = _
    rw [hp, Option.map_some']
    exact congrArg some (applyMask_keepMask_zip _ _ _ hlen)
  · intro w hw hlen
    show (batch.movie_ratedby_user.weight.map _) = _
    rw [hw, Option.map_some']
    exact congrArg some (applyMask_keepMask_zip _ _ _ hlen)

/-- Witness for C10 on a concrete batch with two edges, one of which is
labeled, `pos` absent and `weight` present. -/
theorem c10_remove_label_edges_witness :
    (remove_label_edges sampleBatch).movie_ratedby_user.edge_index =
      sampleBatch.movie_ratedby_user.edge_index.filter
        (fun e =>
          decide (e ∉ sampleBatch.movie_ratedby_user.edge_label_index)) ∧
    (remove_label_edges sampleBatch).movie_ratedby_user.rating =
      ((sampleBatch.movie_ratedby_user.edge_index.zip
          sampleBatch.movie_ratedby_user.rating).filter
        (fun p =>
          decide (p.1 ∉ sampleBatch.movie_ratedby_user.edge_label_index))).map
        Prod.snd ∧
    (remove_label_edges sampleBatch).movie_ratedby_user.e_id =
      ((sampleBatch.movie_ratedby_user.edge_index.zip
          sampleBatch.movie_ratedby_user.e_id).filter
        (fun p =>
          decide (p.1 ∉ sampleBatch.movie_ratedby_user.edge_label_index))).map
        Prod.snd ∧
    (∀ p, sampleBatch.movie_ratedby_user.pos = some p →
      p.length = sampleBatch.movie_ratedby_user.edge_index.length →
      (remove_label_edges sampleBatch).movie_ratedby_user.pos =
        some (((sampleBatch.movie_ratedby_user.edge_index.zip p).filter
          (fun q =>
            decide
              (q.1 ∉ sampleBatch.movie_ratedby_user.edge_label_index))).map
          Prod.snd)) ∧
    (∀ w, sampleBatch.movie_ratedby_user.weight = some w →
      w.length = sampleBatch.movie_ratedby_user.edge_index.length →
      (remove_label_edges sampleBatch).movie_ratedby_user.weight =
        some (((sampleBatch.movie_ratedby_user.edge_index.zip w).filter
          (fun q =>
            decide
              (q.1 ∉ sampleBatch.movie_ratedby_user.edge_label_index))).map
          Prod.snd)) ∧
    (remove_label_edges sampleBatch).movie_ratedby_user.edge_label_index =
      sampleBatch.movie_ratedby_user.edge_label_index ∧
    (remove_label_edges sampleBatch).rest = sampleBatch.rest :=
  c10_remove_label_edges_filters sampleBatch (by decide) (by decide)

end MovieRec
